import Mathlib

/-!
Verification development for the `simpleiot-cli` toolchain subsystem
(`simpleiot/cli/buildtool/toolchain.py`, `toolchainbase.py`,
`ToolchainESP32Arduino_1_0_0.py`).

The Python code is shallowly embedded: strings are Lean `String`s, the
filesystem is a list of existing paths, external shell commands are recorded
in a trace and their effect on the filesystem is an oracle supplied by the
environment, and `exit(1)` is modelled by returning `some 1` as the exit
component of the result.
-/

namespace SimpleIoT

/-! ## Key derivation (`_make_key`)

`_make_key` computes `binascii.hexlify(f"{m}::{p}::{o}::{v}".encode("utf-8"))`.
We model UTF-8 encoding and the lowercase hex encoding explicitly, at the
byte level (bytes as `Nat`, always `< 256` for valid code points).
-/

/-- UTF-8 encoding of a single Unicode code point, as `str.encode("utf-8")`
produces for each character of a Python string. -/
def utf8Char (n : Nat) : List Nat :=
  if n < 0x80 then [n]
  else if n < 0x800 then [0xC0 + n / 0x40, 0x80 + n % 0x40]
  else if n < 0x10000 then [0xE0 + n / 0x1000, 0x80 + (n / 0x40) % 0x40, 0x80 + n % 0x40]
  else [0xF0 + n / 0x40000, 0x80 + (n / 0x1000) % 0x40, 0x80 + (n / 0x40) % 0x40, 0x80 + n % 0x40]

/-- UTF-8 encoding of a string (given as its character list). -/
def utf8 (l : List Char) : List Nat :=
  (l.map (fun c => utf8Char c.toNat)).flatten

/-- Lowercase hexadecimal digit, as produced by `binascii.hexlify`. -/
def hexDigit (n : Nat) : Char :=
  match n with
  | 0 => '0' | 1 => '1' | 2 => '2' | 3 => '3' | 4 => '4'
  | 5 => '5' | 6 => '6' | 7 => '7' | 8 => '8' | 9 => '9'
  | 10 => 'a' | 11 => 'b' | 12 => 'c' | 13 => 'd' | 14 => 'e'
  | _ => 'f'

/-- `binascii.hexlify`: two lowercase hex digits per byte. -/
def hexlify (bytes : List Nat) : List Char :=
  (bytes.map (fun b => [hexDigit (b / 16), hexDigit (b % 16)])).flatten

/-- The f-string `f"{manufacturer}::{processor}::{opsys}::{version}"` built by
`_make_key`. -/
def joinKey (m p o v : String) : String :=
  m ++ "::" ++ p ++ "::" ++ o ++ "::" ++ v

/-- `Toolchain._make_key` (toolchain.py lines 45-49): hexlify the UTF-8
encoding of the `::`-joined tuple and decode the result back to a string. -/
def make_key (m p o v : String) : String :=
  String.mk (hexlify (utf8 (joinKey m p o v).data))

/-- `ToolChainBase._make_key` (toolchainbase.py lines 70-74): a second,
textually identical copy of the same function. -/
def make_key_base (m p o v : String) : String :=
  String.mk (hexlify (utf8 (joinKey m p o v).data))

/-- The character-list form of `joinKey`. -/
def joinL (a b c d : List Char) : List Char :=
  a ++ ':' :: ':' :: (b ++ ':' :: ':' :: (c ++ ':' :: ':' :: d))


/-! ## Environment, world and data model

The host operating system as detected by `platform.system()`. -/

inductive HostOS
  | darwin
  | windows
  | linux
  | other
deriving DecidableEq

/-- The process environment: detected host OS, home directory (for
`os.path.expanduser`), a `shutil.which` oracle for PATH lookups, an oracle
for the filesystem effect of an external shell command, an oracle for the
exit status of an external shell command, the result of the Arduino15
`esptool` glob scan, and the directory produced by `tempfile.mkdtemp`. -/
structure Env where
  hostOS : HostOS
  home : String
  which : String → Bool
  shellEffect : String → List String → List String
  exitCode : String → Int
  scanVersion : Option String
  tempDir : String

/-- The mutable world: the set of existing filesystem paths, the trace of
external commands dispatched so far, and the process working directory. -/
structure World where
  fs : List String
  trace : List String
  cwd : String
deriving DecidableEq

/-- `os.path.expanduser`: a leading `~` is replaced by the home directory. -/
def expanduser (home p : String) : String :=
  if p == "~" then home
  else if "~/".data.isPrefixOf p.data then home ++ String.mk (p.data.drop 1)
  else p

/-- `pathlib.Path` join (`Path(a) / b`). -/
def pjoin (a b : String) : String :=
  a ++ "/" ++ b

/-- `os.path.exists` / `Path.exists` against the modelled filesystem. -/
def pathExists (fs : List String) (p : String) : Bool :=
  decide (p ∈ fs)

/-- `shutil.rmtree`: removes the path and everything beneath it. -/
def removeTree (w : World) (p : String) : World :=
  { w with fs := w.fs.filter (fun q => !(q == p || (p ++ "/").data.isPrefixOf q.data)) }

/-- `ToolChainBase._exec`: runs `subprocess.run(command, shell=True, ...)`.
The command is recorded in the trace; its filesystem effect is the
environment's oracle. -/
def exec_cmd (env : Env) (w : World) (cmd : String) : World :=
  ⟨env.shellEffect cmd w.fs, w.trace ++ [cmd], w.cwd⟩

/-- `_exec` returns the `CompletedProcess`, whose `returncode` is the
environment's exit-status oracle. Callers in this subsystem never consult
that value. -/
def exec_run (env : Env) (w : World) (cmd : String) : Int × World :=
  (env.exitCode cmd, exec_cmd env w cmd)

/-- `ToolChainBase._invoke_unbuffered` (toolchainbase.py lines 92-107): meant
to run `command` through an interactive child process, but the module never
imports `sys`, so its very first test `sys.platform == "win32"` raises
`NameError`, which the bare `except Exception: pass` swallows. On every host
the helper therefore executes nothing, changes nothing, and returns
normally. -/
def invoke_unbuffered (env : Env) (w : World) (cmd : String) : World :=
  w

/-- `ToolChainBase._app_exists`: `shutil.which(name) is not None`. -/
def app_exists (env : Env) (name : String) : Bool :=
  env.which name

/-- `ToolChainBase._file_exists`: `os.path.exists(os.path.expanduser(name))`. -/
def file_existsB (env : Env) (w : World) (name : String) : Bool :=
  pathExists w.fs (expanduser env.home name)

/-- The `ToolchainLocation` enum of toolchainbase.py. -/
inductive ToolchainLocation
  | LOCAL
  | CONTAINER
  | CLOUD_CONTAINER
  | CLOUD_SERVICE
deriving DecidableEq

/-- The `alias_dict` recorded for an installer at construction time. -/
structure AliasDict where
  man : String
  pro : String
  ops : String
  ver : String
  loc : ToolchainLocation
deriving DecidableEq

/-- The state of a `ToolChainBase` instance after `__init__`. -/
structure Installer where
  alias_name : String
  name : String
  desc : String
  manufacturer : String
  processor : String
  opsys : String
  version : String
  can_compile : Bool
  can_flash : Bool
  can_compile_and_flash : Bool
  location : ToolchainLocation
  key : String
  alias_dict : AliasDict
  executable : String
deriving DecidableEq

/-- `ToolChainBase.__init__` (toolchainbase.py lines 36-67): records the
identity tuple, computes `key = _make_key(...)` and the `alias_dict`, and
initialises `executable` to the empty string (subclasses overwrite it). -/
def ToolChainBase.init (alias_name name desc manufacturer processor opsys version : String)
    (location : ToolchainLocation) : Installer :=
  ⟨alias_name, name, desc, manufacturer, processor, opsys, version,
   true, true, true, location,
   make_key_base manufacturer processor opsys version,
   ⟨manufacturer, processor, opsys, version, location⟩, ""⟩

/-- `get_installed_toolchain_version` (ToolchainESP32Arduino_1_0_0.py lines
412-434): a best-effort glob scan under the OS tool-cache directory; only the
Darwin and Windows branches ever set a path, so every other host yields
`None`. -/
def get_installed_toolchain_version (env : Env) : Option String :=
  match env.hostOS with
  | .darwin => env.scanVersion
  | .windows => env.scanVersion
  | _ => none

/-- `ToolchainESP32Arduino_1_0_0.__init__` (lines 27-51): resolve the version
(falling back to `default_version` when the scan finds nothing), call the
base constructor with the fixed identity tuple, then pick the executable
filename from the host OS — `exit(1)` on an unsupported host. -/
def resolvedVersion (env : Env) (default_version : String) : String :=
  match get_installed_toolchain_version env with
  | none => default_version
  | some s => if s = "" then default_version else s

/-- The installer state after the `super().__init__` call of the ESP32
constructor, before the executable is assigned. -/
def esp32Base (env : Env) (default_version : String) : Installer :=
  ToolChainBase.init "esp32arloc" "Espressif Esp32 Arduino Local"
    "Local Arduino-CLI install for ESP32 ArduinoCore"
    "espressif" "esp32" "arduino" (resolvedVersion env default_version)
    ToolchainLocation.LOCAL

def ToolchainESP32Arduino.init (env : Env) (default_version : String) :
    Except Nat Installer :=
  match env.hostOS with
  | .darwin => .ok { esp32Base env default_version with executable := "arduino-cli" }
  | .windows => .ok { esp32Base env default_version with executable := "arduino-cli.exe" }
  | .linux => .ok { esp32Base env default_version with executable := "arduino-cli" }
  | .other => .error 1

/-- `ToolChainBase.install_path` (toolchainbase.py lines 109-115): the per-key
directory under the (user-expanded) base, created on first access. -/
def Installer.install_path (inst : Installer) (env : Env) (w : World) (base : String) :
    String × World :=
  let p := pjoin (expanduser env.home base) inst.key
  (p, if pathExists w.fs p then w else { w with fs := p :: w.fs })

/-- `ToolChainBase.exec_path` (toolchainbase.py lines 117-122): the directory
joined with the platform-specific executable filename. -/
def Installer.exec_path (inst : Installer) (p : String) : String :=
  pjoin p inst.executable

def DEFAULT_TOOLCHAIN_BASE : String := "~/.simpleiot/_toolchain"

def ARDUINO_TOOLCHAIN_CONFIG : String := "~/Library/Arduino15/arduino-cli.yaml"

/-! ## Per-platform installer operations (ToolchainESP32Arduino_1_0_0)

Each operation returns the final world together with `some code` when the
Python code reaches `exit(code)`, or `none` when it returns normally. -/

/-- `install_windows` (lines 54-79): builds one compound powershell command
that removes any pre-existing executable, downloads the release archive into
a temp directory, extracts it and moves the executable into place; non-local
locations are fatal. -/
def Installer.install_windows (inst : Installer) (env : Env) (w : World)
    (base : String) (loc : ToolchainLocation) : World × Option Nat :=
  if loc = ToolchainLocation.LOCAL then
    let source_path := "https://downloads.arduino.cc/arduino-cli/arduino-cli_latest_Windows_64bit.zip"
    let temp_path := env.tempDir
    let install_exe := inst.exec_path base
    let download_path := pjoin temp_path "arduino-cli.zip"
    let exec_command :=
      "powershell Set-PSDebug -Trace 0 &powershell 'If (Test-Path -Path \"" ++
      install_exe ++ "\") \x7b Remove-Item -Path \"" ++ install_exe ++
      "\" -Force \x7d' &cd " ++ temp_path ++
      " & powershell Invoke-WebRequest \"" ++ source_path ++ "\" -OutFile \"" ++
      download_path ++ "\" & powershell -NoLogo -NoProfile -Command Expand-Archive \"arduino-cli.zip\" & powershell Move-Item arduino-cli/arduino-cli.exe \"" ++
      install_exe ++ "\" -Force"
    (exec_cmd env w exec_command, none)
  else (w, some 1)

/-- `install_mac` (lines 108-136): the variant the registry actually
dispatches on Darwin. Refuses (exit 1) if the executable already exists at
`exec_path(base)`; otherwise pipes the official install script with `BINDIR`
pointed at `base`. It never consults Homebrew. -/
def Installer.install_mac (inst : Installer) (env : Env) (w : World)
    (base : String) (loc : ToolchainLocation) : World × Option Nat :=
  if loc = ToolchainLocation.LOCAL then
    let install_exe := inst.exec_path base
    if file_existsB env w install_exe then (w, some 1)
    else
      (exec_cmd env w
        ("curl -fsSL https://raw.githubusercontent.com/arduino/arduino-cli/master/install.sh | BINDIR=" ++
          base ++ " sh"), none)
  else (w, some 1)

/-- The thirteen configuration commands of `reset_mac` (lines 296-359), run
after the conditional `config init`. -/
def resetCommandsMac (install_exe : String) : List String :=
  [install_exe ++ " config set board_manager.additional_urls https://raw.githubusercontent.com/espressif/arduino-esp32/gh-pages/package_esp32_index.json",
   install_exe ++ " config set library.enable_unsafe_install true",
   install_exe ++ " core update-index",
   install_exe ++ " core install esp32:esp32",
   install_exe ++ " lib install ArduinoJson",
   install_exe ++ " lib install ArduinoMqttClient",
   install_exe ++ " lib install FastLED",
   install_exe ++ " lib install TinyGPSPlus-ESP32",
   install_exe ++ " lib install --git-url https://github.com/m5stack/M5Core2.git",
   install_exe ++ " lib install --git-url https://github.com/m5stack/UNIT_ENV.git",
   install_exe ++ " lib install --git-url https://github.com/m5stack/UNIT_ENCODER.git",
   install_exe ++ " lib install --git-url https://github.com/aws-samples/arduino-aws-greengrass-iot.git",
   install_exe ++ " lib install --git-url https://github.com/awslabs/simpleiot-arduino.git"]

/-- The fourteen configuration commands of `reset_windows` (lines 208-221):
an unconditional `config init` first, and `core update-index ` spelled with a
trailing space, exactly as in the source. -/
def resetCommandsWindows (install_exe : String) : List String :=
  [install_exe ++ " config init --overwrite",
   install_exe ++ " config set board_manager.additional_urls https://raw.githubusercontent.com/espressif/arduino-esp32/gh-pages/package_esp32_index.json",
   install_exe ++ " config set library.enable_unsafe_install true",
   install_exe ++ " core update-index ",
   install_exe ++ " core install esp32:esp32",
   install_exe ++ " lib install ArduinoJson",
   install_exe ++ " lib install ArduinoMqttClient",
   install_exe ++ " lib install FastLED",
   install_exe ++ " lib install TinyGPSPlus-ESP32",
   install_exe ++ " lib install --git-url https://github.com/m5stack/M5Core2.git",
   install_exe ++ " lib install --git-url https://github.com/m5stack/UNIT_ENV.git",
   install_exe ++ " lib install --git-url https://github.com/m5stack/UNIT_ENCODER.git",
   install_exe ++ " lib install --git-url https://github.com/aws-samples/arduino-aws-greengrass-iot.git",
   install_exe ++ " lib install --git-url https://github.com/awslabs/simpleiot-arduino.git"]

/-- `reset_mac` (lines 270-372): derives the per-key install directory (which
`install_path` creates if absent), fatally exits if the executable is not
there, otherwise runs `config init` when the Arduino config file is missing
followed by the thirteen configuration commands. -/
def Installer.reset_mac (inst : Installer) (env : Env) (w : World)
    (base : String) (loc : ToolchainLocation) : World × Option Nat :=
  if loc = ToolchainLocation.LOCAL then
    let ipw := inst.install_path env w base
    let install_exe := inst.exec_path ipw.1
    if pathExists ipw.2.fs install_exe then
      let w2 :=
        if !(file_existsB env ipw.2 ARDUINO_TOOLCHAIN_CONFIG) then
          exec_cmd env ipw.2 (install_exe ++ " config init --overwrite")
        else ipw.2
      ((resetCommandsMac install_exe).foldl (exec_cmd env) w2, none)
    else (ipw.2, some 1)
  else (w, some 1)

/-- `reset_windows` (lines 201-230): `base` is the registry-computed
`Path(base) / key`; when the executable is there the fourteen configuration
commands run; when it is missing an error is printed but the routine returns
normally — there is no `exit(1)` on that branch. -/
def Installer.reset_windows (inst : Installer) (env : Env) (w : World)
    (base : String) (loc : ToolchainLocation) : World × Option Nat :=
  if loc = ToolchainLocation.LOCAL then
    let install_exe := inst.exec_path base
    if file_existsB env w install_exe then
      ((resetCommandsWindows install_exe).foldl (exec_cmd env) w, none)
    else (w, none)
  else (w, some 1)

/-- `install_mac_with_brew` (lines 84-106): installs `arduino-cli` through
Homebrew when it is not already on the PATH (fatal if Homebrew itself is
missing), initialises the Arduino config file if absent, then calls
`reset_mac` with the default base. The registry never dispatches this
method. -/
def Installer.install_mac_with_brew (inst : Installer) (env : Env) (w : World)
    (base : String) (loc : ToolchainLocation) : World × Option Nat :=
  if loc = ToolchainLocation.LOCAL then
    let step1 : Option World :=
      if app_exists env "arduino-cli" then some w
      else if app_exists env "brew" then some (exec_cmd env w "brew install arduino-cli")
      else none
    match step1 with
    | none => (w, some 1)
    | some w1 =>
      let w2 :=
        if !(file_existsB env w1 "~/Library/Arduino15/arduino-cli.yaml") then
          exec_cmd env w1 "arduino-cli config init --overwrite"
        else w1
      inst.reset_mac env w2 DEFAULT_TOOLCHAIN_BASE loc
  else (w, some 1)

/-- `uninstall_windows` (lines 138-155): a compound powershell command that
force-removes the executable and the base directory. -/
def Installer.uninstall_windows (inst : Installer) (env : Env) (w : World)
    (base : String) (loc : ToolchainLocation) : World × Option Nat :=
  if loc = ToolchainLocation.LOCAL then
    let install_exe := inst.exec_path base
    let delete_command :=
      "powershell Set-PSDebug -Trace 0 &powershell 'If (Test-Path -Path \"" ++
      install_exe ++ "\") \x7b Remove-Item -Path \"" ++ install_exe ++
      "\" -Force \x7d' &powershell 'If (Test-Path -Path \"" ++ base ++
      "\") \x7b Remove-Item -Path \"" ++ base ++ "\" -Force \x7d'"
    (exec_cmd env w delete_command, none)
  else (w, some 1)

/-- `uninstall_mac` (lines 174-198): `shutil.rmtree(base)` when the
executable is present (an `rmtree` on a missing directory raises, which the
handler turns into exit 1); a missing executable only prints an error. -/
def Installer.uninstall_mac (inst : Installer) (env : Env) (w : World)
    (base : String) (loc : ToolchainLocation) : World × Option Nat :=
  if loc = ToolchainLocation.LOCAL then
    let install_exe := inst.exec_path base
    if file_existsB env w install_exe then
      if pathExists w.fs base then (removeTree w base, none) else (w, some 1)
    else (w, none)
  else (w, some 1)

/-- The string `full_command` that `build` and `flash` construct
(ToolchainESP32Arduino_1_0_0.py lines 378-379 and 387-388):
`f"{exec} {command}"` with `exec = self.exec_path(base)` — the executable
filename directly under `base`, not under the per-key install directory. -/
def Installer.build_full_command (inst : Installer) (base command : String) : String :=
  inst.exec_path base ++ " " ++ command

/-- `build` (lines 377-384): constructs `full_command` from `exec_path(base)`,
changes the working directory to `dirpath`, hands the line to
`_invoke_unbuffered` — which executes nothing, see above — and returns the
constant `True`. -/
def Installer.build (inst : Installer) (env : Env) (w : World)
    (base dirpath command : String) : Bool × World :=
  let full_command := inst.build_full_command base command
  let w1 := { w with cwd := dirpath }
  (true, invoke_unbuffered env w1 full_command)

/-- `flash` (lines 386-393): identical shape to `build`. -/
def Installer.flash (inst : Installer) (env : Env) (w : World)
    (base dirpath command : String) : Bool × World :=
  let full_command := inst.build_full_command base command
  let w1 := { w with cwd := dirpath }
  (true, invoke_unbuffered env w1 full_command)

/-- `build_and_flash` (lines 395-403): resolves the executable under the
per-key install directory (creating it), runs the combined command through
`_exec` — whose returncode is discarded — and never changes the working
directory (the `os.chdir` line is commented out in the source). -/
def Installer.build_and_flash (inst : Installer) (env : Env) (w : World)
    (base dirpath command : String) : Bool × World :=
  let ipw := inst.install_path env w base
  let ex := inst.exec_path ipw.1
  let full_command := ex ++ " " ++ command
  (true, (exec_run env ipw.2 full_command).2)

/-! ## The registry (`Toolchain`) -/

/-- The class-level registry state: `toolchain_list` maps keys to installers,
`toolchain_alias` maps aliases to their `alias_dict`. Python dict assignment
is modelled by prepending; `lookup` finds the most recent binding. -/
structure Registry where
  toolchain_list : List (String × Installer)
  toolchain_alias : List (String × AliasDict)
deriving DecidableEq

/-- `Toolchain._register` (toolchain.py lines 53-55). -/
def Registry.register (reg : Registry) (inst : Installer) : Registry :=
  ⟨(inst.key, inst) :: reg.toolchain_list,
   (inst.alias_name, inst.alias_dict) :: reg.toolchain_alias⟩

/-- `Toolchain.__init__` (toolchain.py lines 26-32): registers the single
ESP32/Arduino installer, built with the mandatory `default_arduino_version`
argument; the installer constructor itself can exit on an unsupported host. -/
def Toolchain.init (env : Env) (default_arduino_version : String) :
    Except Nat Registry :=
  match ToolchainESP32Arduino.init env default_arduino_version with
  | .ok inst => .ok (Registry.register ⟨[], []⟩ inst)
  | .error c => .error c

/-- Python call protocol for the `Toolchain` constructor: `__init__` has one
required positional parameter (`default_arduino_version`) and no default, so
any argument list that does not supply exactly one value raises `TypeError`
before any installer is registered. -/
def Toolchain.call (env : Env) (args : List String) :
    Except String (Except Nat Registry) :=
  match args with
  | [v] => .ok (Toolchain.init env v)
  | _ => .error "TypeError: missing required positional argument"

/-- The zero-argument construction `Toolchain()` at cli/toolchain.py line 50
(module import time) and cli/firmware.py line 228. -/
def cliToolchainConstruction (env : Env) : Except String (Except Nat Registry) :=
  Toolchain.call env []

/-- `Toolchain._resolve_alias` (toolchain.py lines 57-62): unknown aliases are
fatal. (The `if not cls` test is falsy only for a missing entry — a recorded
`alias_dict` always has five keys.) -/
def Toolchain.resolve_alias (reg : Registry) (alias_name : String) :
    Except Nat AliasDict :=
  match reg.toolchain_alias.lookup alias_name with
  | some d => .ok d
  | none => .error 1

/-- `Toolchain.install` (toolchain.py lines 85-118): look up the installer by
the derived key — a missing key is exit 1 with the world untouched — then
derive (and create) the install directory and dispatch on the *runtime* OS.
`install_unix` is not overridden by the ESP32 installer, so the Linux branch
raises `NotImplementedError`, which the handler turns into exit 1; an
unrecognised OS only prints an error and returns normally. -/
def Toolchain.install (env : Env) (reg : Registry) (w : World)
    (base manufacturer processor opsys version : String)
    (location : ToolchainLocation) : World × Option Nat :=
  let key := make_key manufacturer processor opsys version
  match reg.toolchain_list.lookup key with
  | none => (w, some 1)
  | some installer =>
    let ipw := installer.install_path env w base
    match env.hostOS with
    | .darwin => installer.install_mac env ipw.2 ipw.1 location
    | .windows => installer.install_windows env ipw.2 ipw.1 location
    | .linux => (ipw.2, some 1)
    | .other => (ipw.2, none)

/-- `Toolchain.install_alias` (toolchain.py lines 75-82). -/
def Toolchain.install_alias (env : Env) (reg : Registry) (w : World)
    (base alias_name : String) : World × Option Nat :=
  match Toolchain.resolve_alias reg alias_name with
  | .error c => (w, some c)
  | .ok params =>
    Toolchain.install env reg w base params.man params.pro params.ops params.ver params.loc

/-- `Toolchain.uninstall` (toolchain.py lines 121-159): after the per-OS
routine (Linux: `uninstall_unix` unimplemented, exit 1; unknown OS: print
only), the install directory is force-removed if it still exists. -/
def uninstall_step (env : Env) (installer : Installer) (w1 : World) (dir : String)
    (location : ToolchainLocation) : World × Option Nat :=
  match env.hostOS with
  | .darwin => installer.uninstall_mac env w1 dir location
  | .windows => installer.uninstall_windows env w1 dir location
  | .linux => (w1, some 1)
  | .other => (w1, none)

def Toolchain.uninstall (env : Env) (reg : Registry) (w : World)
    (base manufacturer processor opsys version : String)
    (location : ToolchainLocation) : World × Option Nat :=
  match reg.toolchain_list.lookup (make_key manufacturer processor opsys version) with
  | none => (w, some 1)
  | some installer =>
    let ipw := installer.install_path env w base
    let step := uninstall_step env installer ipw.2 ipw.1 location
    match step.2 with
    | some c => (step.1, some c)
    | none =>
      (if pathExists step.1.fs ipw.1 then removeTree step.1 ipw.1 else step.1, none)

/-- `Toolchain.reset` (toolchain.py lines 161-192): Darwin passes `base`
through to `reset_mac`; Windows passes `Path(base) / key` (no user
expansion); Linux hits the unimplemented `reset_unix` (exit 1); a missing
key is exit 1. -/
def Toolchain.reset (env : Env) (reg : Registry) (w : World)
    (base manufacturer processor opsys version : String)
    (location : ToolchainLocation) : World × Option Nat :=
  let key := make_key manufacturer processor opsys version
  match reg.toolchain_list.lookup key with
  | none => (w, some 1)
  | some installer =>
    match env.hostOS with
    | .darwin => installer.reset_mac env w base location
    | .windows => installer.reset_windows env w (pjoin base key) location
    | .linux => (w, some 1)
    | .other => (w, none)

/-- `Toolchain.build` (toolchain.py lines 194-216): dispatch to the
installer's `build`, returning its boolean result; a missing key is exit 1. -/
def Toolchain.build (env : Env) (reg : Registry) (w : World)
    (base manufacturer processor opsys version : String)
    (location : ToolchainLocation) (dirpath command : String) :
    Option Bool × World × Option Nat :=
  match reg.toolchain_list.lookup (make_key manufacturer processor opsys version) with
  | none => (none, w, some 1)
  | some installer =>
    let (r, w2) := installer.build env w base dirpath command
    (some r, w2, none)

/-- `Toolchain.build_and_flash` (toolchain.py lines 218-240). -/
def Toolchain.build_and_flash (env : Env) (reg : Registry) (w : World)
    (base manufacturer processor opsys version : String)
    (location : ToolchainLocation) (dirpath command : String) :
    Option Bool × World × Option Nat :=
  match reg.toolchain_list.lookup (make_key manufacturer processor opsys version) with
  | none => (none, w, some 1)
  | some installer =>
    let (r, w2) := installer.build_and_flash env w base dirpath command
    (some r, w2, none)

/-- `Toolchain.list_available` (toolchain.py lines 246-247). -/
def Toolchain.list_available (reg : Registry) : List (String × Installer) :=
  reg.toolchain_list

/-- The identity tuple recorded on an installer. -/
def tupleOf (inst : Installer) : String × String × String × String :=
  (inst.manufacturer, inst.processor, inst.opsys, inst.version)

/-- The tuples of all registered installers. -/
def registeredTuples (reg : Registry) : List (String × String × String × String) :=
  reg.toolchain_list.map (fun e => tupleOf e.2)

/-! ## Concrete run configurations used by witnesses and counterexamples -/

/-- A Darwin host with nothing installed, no PATH hits, inert shell commands. -/
def envDarwin : Env :=
  ⟨.darwin, "/home/u", fun _ => false, fun _ fs => fs, fun _ => 0, none, "/tmp/t"⟩

/-- A Windows host with nothing installed. -/
def envWindows : Env :=
  ⟨.windows, "/home/u", fun _ => false, fun _ fs => fs, fun _ => 0, none, "/tmp/t"⟩

/-- A Darwin host on which `brew` is on the PATH but `arduino-cli` is not. -/
def envBrew : Env :=
  ⟨.darwin, "/home/u", fun s => s == "brew", fun _ fs => fs, fun _ => 0, none, "/tmp/t"⟩

/-- A Darwin host on which `arduino-cli` is already on the PATH. -/
def envCli : Env :=
  ⟨.darwin, "/home/u", fun s => s == "arduino-cli", fun _ fs => fs, fun _ => 0, none, "/tmp/t"⟩

/-- A Darwin host whose Arduino15 glob scan yields the version string
`":1.0.0"` (directory names may contain `':'` on the POSIX layer). -/
def envColonScan : Env :=
  ⟨.darwin, "/home/u", fun _ => false, fun _ fs => fs, fun _ => 0, some ":1.0.0", "/tmp/t"⟩

/-- An empty starting world. -/
def w0 : World := ⟨[], [], "/start"⟩

/-- The registry built by a successful `Toolchain.__init__`. -/
def regOf (env : Env) (V : String) : Registry :=
  match Toolchain.init env V with
  | .ok r => r
  | .error _ => ⟨[], []⟩

/-- The installer built by a successful ESP32 constructor. -/
def instOf (env : Env) (V : String) : Installer :=
  match ToolchainESP32Arduino.init env V with
  | .ok i => i
  | .error _ => esp32Base env V

/-- Substring test used to state C9 ("contains the substring `::`"). -/
def hasInfixL (pat : List Char) : List Char → Bool
  | [] => pat.isEmpty
  | c :: cs => pat.isPrefixOf (c :: cs) || hasInfixL pat cs

/-- `pat` occurs as a contiguous substring of `s`. -/
def hasSubstr (pat s : String) : Bool :=
  hasInfixL pat.data s.data

/-! ### Injectivity of the key pipeline -/

theorem char_toNat_lt (c : Char) : c.toNat < 0x110000 := by
  have h := c.valid
  have he : c.toNat = c.val.toNat := rfl
  rcases h with h | ⟨h1, h2⟩ <;> omega

theorem utf8Char_ne_nil (n : Nat) : utf8Char n ≠ [] := by
  unfold utf8Char
  split_ifs <;> simp

theorem utf8Char_lt (n : Nat) (hn : n < 0x110000) : ∀ b ∈ utf8Char n, b < 256 := by
  unfold utf8Char
  split_ifs <;> intro b hb <;> simp only [List.mem_cons, List.mem_singleton,
    List.not_mem_nil, or_false] at hb <;> omega

theorem utf8Char_append_inj {m n : Nat} (hm : m < 0x110000) (hn : n < 0x110000)
    {r₁ r₂ : List Nat} (h : utf8Char m ++ r₁ = utf8Char n ++ r₂) :
    m = n ∧ r₁ = r₂ := by
  unfold utf8Char at h
  split_ifs at h <;>
    simp only [List.cons_append, List.nil_append, List.cons.injEq] at h <;>
    first
      | exact absurd h.1 (by omega)
      | exact ⟨by omega, h.2⟩
      | exact ⟨by omega, h.2.2⟩
      | exact ⟨by omega, h.2.2.2⟩
      | exact ⟨by omega, h.2.2.2.2⟩

theorem utf8_bytes_lt (l : List Char) : ∀ b ∈ utf8 l, b < 256 := by
  induction l with
  | nil => simp [utf8]
  | cons c cs ih =>
    intro b hb
    simp only [utf8, List.map_cons, List.flatten_cons, List.mem_append] at hb
    rcases hb with hb | hb
    · exact utf8Char_lt c.toNat (char_toNat_lt c) b hb
    · exact ih b hb

theorem utf8_inj : ∀ {l₁ l₂ : List Char}, utf8 l₁ = utf8 l₂ → l₁ = l₂ := by
  intro l₁
  induction l₁ with
  | nil =>
    intro l₂ h
    cases l₂ with
    | nil => rfl
    | cons c cs =>
      exfalso
      simp only [utf8, List.map_nil, List.flatten_nil, List.map_cons,
        List.flatten_cons] at h
      exact utf8Char_ne_nil c.toNat (List.append_eq_nil.mp h.symm).1
  | cons a as ih =>
    intro l₂ h
    cases l₂ with
    | nil =>
      exfalso
      simp only [utf8, List.map_nil, List.flatten_nil, List.map_cons,
        List.flatten_cons] at h
      exact utf8Char_ne_nil a.toNat (List.append_eq_nil.mp h).1
    | cons b bs =>
      simp only [utf8, List.map_cons, List.flatten_cons] at h
      obtain ⟨hab, hrest⟩ := utf8Char_append_inj (char_toNat_lt a) (char_toNat_lt b) h
      have hv : a.val = b.val := by
        have h1 : a.val.toNat = b.val.toNat := hab
        exact UInt32.toNat.inj h1
      exact List.cons_eq_cons.mpr ⟨Char.ext hv, ih hrest⟩

theorem hexDigit_inj : ∀ a < 16, ∀ b < 16, hexDigit a = hexDigit b → a = b := by
  decide

theorem hexlify_inj : ∀ {b₁ b₂ : List Nat}, (∀ x ∈ b₁, x < 256) →
    (∀ x ∈ b₂, x < 256) → hexlify b₁ = hexlify b₂ → b₁ = b₂ := by
  intro b₁
  induction b₁ with
  | nil =>
    intro b₂ _ _ h
    cases b₂ with
    | nil => rfl
    | cons y ys => simp [hexlify] at h
  | cons x xs ih =>
    intro b₂ h₁ h₂ h
    cases b₂ with
    | nil => simp [hexlify] at h
    | cons y ys =>
      simp only [hexlify, List.map_cons, List.flatten_cons, List.cons_append,
        List.nil_append, List.cons.injEq] at h
      obtain ⟨hd, hm, hrest⟩ := h
      have hx := h₁ x (List.mem_cons_self x xs)
      have hy := h₂ y (List.mem_cons_self y ys)
      have e1 : x / 16 = y / 16 :=
        hexDigit_inj (x / 16) (by omega) (y / 16) (by omega) hd
      have e2 : x % 16 = y % 16 :=
        hexDigit_inj (x % 16) (by omega) (y % 16) (by omega) hm
      have exy : x = y := by omega
      have hxs : ∀ z ∈ xs, z < 256 := fun z hz => h₁ z (List.mem_cons_of_mem x hz)
      have hys : ∀ z ∈ ys, z < 256 := fun z hz => h₂ z (List.mem_cons_of_mem y hz)
      exact List.cons_eq_cons.mpr ⟨exy, ih hxs hys (by simpa [hexlify] using hrest)⟩

theorem joinKey_data (m p o v : String) :
    (joinKey m p o v).data = joinL m.data p.data o.data v.data := by
  simp [joinKey, joinL, String.data_append]

theorem sep_split {a b r₁ r₂ : List Char} (ha : ':' ∉ a) (hb : ':' ∉ b)
    (h : a ++ ':' :: ':' :: r₁ = b ++ ':' :: ':' :: r₂) : a = b ∧ r₁ = r₂ := by
  induction a generalizing b with
  | nil =>
    cases b with
    | nil => simpa using h
    | cons y ys =>
      exfalso
      simp only [List.nil_append, List.cons_append, List.cons.injEq] at h
      exact hb (h.1 ▸ List.mem_cons_self y ys)
  | cons x xs ih =>
    cases b with
    | nil =>
      exfalso
      simp only [List.nil_append, List.cons_append, List.cons.injEq] at h
      exact ha (h.1 ▸ List.mem_cons_self x xs)
    | cons y ys =>
      simp only [List.cons_append, List.cons.injEq] at h
      have ha' : ':' ∉ xs := fun hc => ha (List.mem_cons_of_mem x hc)
      have hb' : ':' ∉ ys := fun hc => hb (List.mem_cons_of_mem y hc)
      obtain ⟨hxy, hrest⟩ := h
      obtain ⟨e1, e2⟩ := ih ha' hb' hrest
      exact ⟨by rw [hxy, e1], e2⟩

theorem count_joinL (a b c d : List Char) :
    (joinL a b c d).count ':' =
      a.count ':' + b.count ':' + c.count ':' + d.count ':' + 6 := by
  simp [joinL, List.count_append, List.count_cons]
  ring

/-- Injectivity of the `::`-join when the right tuple's fields are free of the
`':'` character (the left tuple is arbitrary): equality of joins forces the
left tuple to be colon-free as well, and then the split is unique. -/
theorem joinL_inj_right {a' b' c' d' a b c d : List Char}
    (ha : ':' ∉ a) (hb : ':' ∉ b) (hc : ':' ∉ c) (hd : ':' ∉ d)
    (h : joinL a' b' c' d' = joinL a b c d) :
    a' = a ∧ b' = b ∧ c' = c ∧ d' = d := by
  have hcount : (joinL a' b' c' d').count ':' = (joinL a b c d).count ':' := by
    rw [h]
  rw [count_joinL, count_joinL] at hcount
  rw [List.count_eq_zero.mpr ha, List.count_eq_zero.mpr hb,
    List.count_eq_zero.mpr hc, List.count_eq_zero.mpr hd] at hcount
  have ha' : ':' ∉ a' := List.count_eq_zero.mp (by omega)
  have hb' : ':' ∉ b' := List.count_eq_zero.mp (by omega)
  have hc' : ':' ∉ c' := List.count_eq_zero.mp (by omega)
  have hd' : ':' ∉ d' := List.count_eq_zero.mp (by omega)
  unfold joinL at h
  obtain ⟨e1, h1⟩ := sep_split ha' ha h
  obtain ⟨e2, h2⟩ := sep_split hb' hb h1
  obtain ⟨e3, e4⟩ := sep_split hc' hc h2
  exact ⟨e1, e2, e3, e4⟩

/-- Injectivity of `make_key` when the right tuple's fields contain no `':'`
character: any tuple whatsoever that collides with it must equal it. -/
theorem make_key_inj_right {m' p' o' v' m p o v : String}
    (hm : ':' ∉ m.data) (hp : ':' ∉ p.data) (ho : ':' ∉ o.data) (hv : ':' ∉ v.data)
    (h : make_key m' p' o' v' = make_key m p o v) :
    m' = m ∧ p' = p ∧ o' = o ∧ v' = v := by
  have hdata : hexlify (utf8 (joinKey m' p' o' v').data) =
      hexlify (utf8 (joinKey m p o v).data) := congrArg String.data h
  have hutf : utf8 (joinKey m' p' o' v').data = utf8 (joinKey m p o v).data :=
    hexlify_inj (utf8_bytes_lt _) (utf8_bytes_lt _) hdata
  have hjoin : (joinKey m' p' o' v').data = (joinKey m p o v).data := utf8_inj hutf
  rw [joinKey_data, joinKey_data] at hjoin
  obtain ⟨e1, e2, e3, e4⟩ := joinL_inj_right hm hp ho hv hjoin
  exact ⟨String.ext e1, String.ext e2, String.ext e3, String.ext e4⟩

/-! ## General lemmas about the embedding -/

theorem make_key_base_eq (m p o v : String) :
    make_key_base m p o v = make_key m p o v := rfl

theorem pjoin_ne (a b : String) : pjoin a b ≠ a := by
  intro h
  have hlen := congrArg (fun s => s.data.length) h
  simp only [pjoin, String.data_append] at hlen
  simp at hlen

theorem removeTree_not_mem (w : World) (p : String) : p ∉ (removeTree w p).fs := by
  intro h
  simp only [removeTree, List.mem_filter] at h
  simp at h

theorem pathExists_iff {fs : List String} {p : String} :
    pathExists fs p = true ↔ p ∈ fs := by
  simp [pathExists]

theorem exec_cmd_trace (env : Env) (w : World) (c : String) :
    (exec_cmd env w c).trace = w.trace ++ [c] := rfl

theorem foldl_exec_trace (env : Env) (cmds : List String) (w : World) :
    (cmds.foldl (exec_cmd env) w).trace = w.trace ++ cmds := by
  induction cmds generalizing w with
  | nil => simp
  | cons c cs ih =>
    simp only [List.foldl_cons]
    rw [ih]
    simp [exec_cmd_trace]

theorem install_path_fst (inst : Installer) (env : Env) (w : World) (base : String) :
    (inst.install_path env w base).1 = pjoin (expanduser env.home base) inst.key := rfl

theorem install_path_trace (inst : Installer) (env : Env) (w : World) (base : String) :
    (inst.install_path env w base).2.trace = w.trace := by
  unfold Installer.install_path
  dsimp only
  split <;> rfl

theorem install_path_cwd (inst : Installer) (env : Env) (w : World) (base : String) :
    (inst.install_path env w base).2.cwd = w.cwd := by
  unfold Installer.install_path
  dsimp only
  split <;> rfl

theorem install_path_mem (inst : Installer) (env : Env) (w : World) (base : String) :
    (inst.install_path env w base).1 ∈ (inst.install_path env w base).2.fs := by
  unfold Installer.install_path
  dsimp only
  split
  · rename_i h
    exact pathExists_iff.mp h
  · exact List.mem_cons_self _ _

theorem install_path_fs_mem {inst : Installer} {env : Env} {w : World} {base : String}
    {q : String} (h : q ∈ (inst.install_path env w base).2.fs) :
    q = (inst.install_path env w base).1 ∨ q ∈ w.fs := by
  unfold Installer.install_path at h ⊢
  dsimp only at h ⊢
  split at h
  · exact Or.inr h
  · simpa using h

theorem lookup_singleton {k a : String} {b inst : Installer}
    (h : List.lookup k [(a, b)] = some inst) : k = a ∧ inst = b := by
  simp only [List.lookup] at h
  split at h
  · rename_i heq
    injection h with h1
    exact ⟨eq_of_beq heq, h1.symm⟩
  · simp at h

/-- The shape of the registry produced by a successful `Toolchain.__init__`:
exactly one installer, the ESP32/Arduino one, keyed by its own key and
aliased as `esp32arloc`. -/
theorem init_ok_shape {env : Env} {V : String} {reg : Registry}
    (h : Toolchain.init env V = .ok reg) :
    ∃ inst : Installer,
      reg.toolchain_list = [(inst.key, inst)] ∧
      reg.toolchain_alias = [(inst.alias_name, inst.alias_dict)] ∧
      inst.key = make_key "espressif" "esp32" "arduino" (resolvedVersion env V) ∧
      inst.alias_name = "esp32arloc" ∧
      inst.alias_dict = ⟨"espressif", "esp32", "arduino", resolvedVersion env V,
        ToolchainLocation.LOCAL⟩ ∧
      tupleOf inst = ("espressif", "esp32", "arduino", resolvedVersion env V) ∧
      (env.hostOS = .darwin → inst.executable = "arduino-cli") ∧
      (env.hostOS = .windows → inst.executable = "arduino-cli.exe") ∧
      (env.hostOS = .linux → inst.executable = "arduino-cli") := by
  cases henv : env.hostOS <;>
    simp only [Toolchain.init, ToolchainESP32Arduino.init, henv] at h
  case other => exact Except.noConfusion h
  case darwin =>
    obtain rfl := Except.ok.inj h
    refine ⟨{ esp32Base env V with executable := "arduino-cli" }, rfl, rfl, rfl, rfl,
      rfl, rfl, fun _ => rfl, ?_, ?_⟩ <;> (intro hc; exact absurd hc (by decide))
  case windows =>
    obtain rfl := Except.ok.inj h
    refine ⟨{ esp32Base env V with executable := "arduino-cli.exe" }, rfl, rfl, rfl, rfl,
      rfl, rfl, ?_, fun _ => rfl, ?_⟩ <;> (intro hc; exact absurd hc (by decide))
  case linux =>
    obtain rfl := Except.ok.inj h
    refine ⟨{ esp32Base env V with executable := "arduino-cli" }, rfl, rfl, rfl, rfl,
      rfl, rfl, ?_, ?_, fun _ => rfl⟩ <;> (intro hc; exact absurd hc (by decide))

/-! ## The claims -/

/-- C10: `Toolchain.__init__` takes one mandatory parameter
(`default_arduino_version`) with no default, and the CLI command modules
construct the registry with zero arguments (`Toolchain()` at
cli/toolchain.py:50 and cli/firmware.py:228), so every zero-argument
construction raises `TypeError` before any installer is registered. -/
theorem C10_zero_arg_construction (env : Env) :
    cliToolchainConstruction env =
      .error "TypeError: missing required positional argument" := rfl

/-- C7: `build`, `flash` and `build_and_flash` return `true` whenever they
return, in every environment — hence for every exit status the invoked
subprocess could produce; the underlying tool's exit code is never consulted
to determine the result. -/
theorem C7_build_always_true (inst : Installer) (env : Env) (w : World)
    (base dirpath command : String) :
    (inst.build env w base dirpath command).1 = true ∧
    (inst.flash env w base dirpath command).1 = true ∧
    (inst.build_and_flash env w base dirpath command).1 = true :=
  ⟨rfl, rfl, rfl⟩

/-- C1 (amended): `build` and `flash` construct the command line
`exec_path(base) ++ " " ++ command` — the executable filename joined directly
under `base`, not under the per-key install directory — and set the working
directory to the supplied source directory, but the helper they hand it to,
`_invoke_unbuffered`, dies on a swallowed `NameError` (the module never
imports `sys`) and executes nothing: no external command runs and the
filesystem and trace are unchanged. `build_and_flash` does run a command,
through `_exec`: `exec_path(install_path(base)) ++ " " ++ command`, without
changing the working directory. Wherever a command line is constructed it is
exactly the resolved executable path, one space, and the caller's literal
command string. -/
theorem C1_invocation_shape (inst : Installer) (env : Env) (w : World)
    (base dirpath command : String) :
    (inst.build_full_command base command =
       pjoin base inst.executable ++ " " ++ command) ∧
    ((inst.build env w base dirpath command).2.cwd = dirpath ∧
     (inst.build env w base dirpath command).2.trace = w.trace ∧
     (inst.build env w base dirpath command).2.fs = w.fs) ∧
    ((inst.flash env w base dirpath command).2.cwd = dirpath ∧
     (inst.flash env w base dirpath command).2.trace = w.trace ∧
     (inst.flash env w base dirpath command).2.fs = w.fs) ∧
    ((inst.build_and_flash env w base dirpath command).2.cwd = w.cwd ∧
     (inst.build_and_flash env w base dirpath command).2.trace =
       w.trace ++ [pjoin (pjoin (expanduser env.home base) inst.key) inst.executable
         ++ " " ++ command]) := by
  refine ⟨rfl, ⟨rfl, rfl, rfl⟩, ⟨rfl, rfl, rfl⟩, ?_, ?_⟩
  · have h1 : (inst.build_and_flash env w base dirpath command).2.cwd =
        (inst.install_path env w base).2.cwd := rfl
    rw [h1, install_path_cwd]
  · have h2 : (inst.build_and_flash env w base dirpath command).2.trace =
        (inst.install_path env w base).2.trace ++
          [inst.exec_path (inst.install_path env w base).1 ++ " " ++ command] := rfl
    rw [h2, install_path_trace, install_path_fst]
    rfl

/-- C1 counterexample: on a concrete Darwin run, the command line `build`
constructs is not the executable located at `exec_path(install_path(base))`,
`build` invokes no external command at all (its trace stays empty), and
`build_and_flash` does not set the working directory to the source dir. -/
theorem C1_counterexample :
    (instOf envDarwin "1.0.0").build_full_command "/tmp/tc" "compile" ≠
      (instOf envDarwin "1.0.0").exec_path
          ((instOf envDarwin "1.0.0").install_path envDarwin w0 "/tmp/tc").1
        ++ " " ++ "compile" ∧
    ((instOf envDarwin "1.0.0").build envDarwin w0 "/tmp/tc" "/src" "compile").2.trace
      = [] ∧
    ((instOf envDarwin "1.0.0").build_and_flash envDarwin w0 "/tmp/tc" "/src" "compile").2.cwd
      ≠ "/src" := by
  decide

/-- C2: key derivation is deterministic — the two `_make_key` copies agree,
and the key computed at construction depends only on the identity tuple, not
on alias, naming, location or executable — and across the set of tuples
actually registered in a process run (`Toolchain.__init__` registers exactly
one installer), no two distinct registered tuples produce the same key. -/
theorem C2_key_deterministic_injective :
    (∀ m p o v : String, make_key_base m p o v = make_key m p o v) ∧
    (∀ (a₁ n₁ d₁ a₂ n₂ d₂ m p o v : String) (l₁ l₂ : ToolchainLocation) (e₁ e₂ : String),
      ({ ToolChainBase.init a₁ n₁ d₁ m p o v l₁ with executable := e₁ } : Installer).key =
      ({ ToolChainBase.init a₂ n₂ d₂ m p o v l₂ with executable := e₂ } : Installer).key) ∧
    (∀ (env : Env) (V : String) (reg : Registry), Toolchain.init env V = .ok reg →
      ∀ e₁ ∈ reg.toolchain_list, ∀ e₂ ∈ reg.toolchain_list,
        e₁.2.key = e₂.2.key → tupleOf e₁.2 = tupleOf e₂.2) := by
  refine ⟨fun _ _ _ _ => rfl, fun _ _ _ _ _ _ _ _ _ _ _ _ _ _ => rfl, ?_⟩
  intro env V reg h e₁ h₁ e₂ h₂ _
  obtain ⟨inst, hlist, -⟩ := init_ok_shape h
  rw [hlist] at h₁ h₂
  simp only [List.mem_singleton] at h₁ h₂
  rw [h₁, h₂]

/-- C2 witness: the concrete Darwin registry, instantiated at its single
registered entry. -/
theorem C2_witness :
    tupleOf (instOf envDarwin "1.0.0") = tupleOf (instOf envDarwin "1.0.0") :=
  C2_key_deterministic_injective.2.2 envDarwin "1.0.0" (regOf envDarwin "1.0.0")
    rfl
    ((instOf envDarwin "1.0.0").key, instOf envDarwin "1.0.0") (by decide)
    ((instOf envDarwin "1.0.0").key, instOf envDarwin "1.0.0") (by decide)
    rfl

/-- C3: alias resolution is a left inverse of registration — registering any
installer constructed with identity tuple `(m, p, o, v)` and location `loc`
under alias `a`, then resolving `a`, yields exactly that tuple and
location. -/
theorem C3_resolve_alias_left_inverse (reg : Registry)
    (a n d m p o v : String) (loc : ToolchainLocation) (e : String) :
    Toolchain.resolve_alias
      (reg.register { ToolChainBase.init a n d m p o v loc with executable := e }) a =
      .ok ⟨m, p, o, v, loc⟩ := by
  simp [Toolchain.resolve_alias, Registry.register, ToolChainBase.init, List.lookup]

/-- C9 counterexample: the claim's injectivity condition is too weak — the
tuples `("a:", "b", "c", "d")` and `("a", ":b", "c", "d")` are distinct, no
field contains the substring `::`, and yet their keys coincide. -/
theorem C9_counterexample :
    make_key "a:" "b" "c" "d" = make_key "a" ":b" "c" "d" ∧
    ("a:", "b", "c", "d") ≠ (("a", ":b", "c", "d") : String × String × String × String) ∧
    hasSubstr "::" "a:" = false ∧ hasSubstr "::" ":b" = false ∧
    hasSubstr "::" "a" = false ∧ hasSubstr "::" "b" = false ∧
    hasSubstr "::" "c" = false ∧ hasSubstr "::" "d" = false := by
  decide

/-- C9 (amended): the key hex-encodes the `::`-joined fields, so it is
injective on 4-tuples none of whose fields contains the character `':'`
(containing no `::` substring is not enough), and it is not injective over
all 4-tuples: `("a::b","c","d","e")` and `("a","b::c","d","e")` collide. -/
theorem C9_key_injectivity :
    (∀ m p o v m' p' o' v' : String,
      ':' ∉ m.data → ':' ∉ p.data → ':' ∉ o.data → ':' ∉ v.data →
      ':' ∉ m'.data → ':' ∉ p'.data → ':' ∉ o'.data → ':' ∉ v'.data →
      make_key m p o v = make_key m' p' o' v' → (m, p, o, v) = (m', p', o', v')) ∧
    (make_key "a::b" "c" "d" "e" = make_key "a" "b::c" "d" "e" ∧
     ("a::b", "c", "d", "e") ≠ (("a", "b::c", "d", "e") : String × String × String × String)) := by
  refine ⟨?_, by decide, by decide⟩
  intro m p o v m' p' o' v' _ _ _ _ hm' hp' ho' hv' h
  obtain ⟨e1, e2, e3, e4⟩ := make_key_inj_right hm' hp' ho' hv' h
  rw [e1, e2, e3, e4]

/-- C9 witness: the injectivity part applied at a concrete colon-free
tuple. -/
theorem C9_witness :
    (("x", "y", "z", "1.0.0") : String × String × String × String) =
      ("x", "y", "z", "1.0.0") :=
  C9_key_injectivity.1 "x" "y" "z" "1.0.0" "x" "y" "z" "1.0.0"
    (by decide) (by decide) (by decide) (by decide)
    (by decide) (by decide) (by decide) (by decide) rfl

theorem lookup_key_eq {l : List (String × Installer)}
    (hwf : ∀ kv ∈ l, kv.1 = kv.2.key) {k : String} {b : Installer}
    (h : l.lookup k = some b) : b.key = k := by
  induction l with
  | nil => simp [List.lookup] at h
  | cons hd tl ih =>
    obtain ⟨k₀, b₀⟩ := hd
    simp only [List.lookup] at h
    split at h
    · rename_i heq
      injection h with hb
      subst hb
      have hk := hwf (k₀, b₀) (List.mem_cons_self _ _)
      simp only at hk
      rw [← hk]
      exact (eq_of_beq heq).symm
    · exact ih (fun kv hkv => hwf kv (List.mem_cons_of_mem _ hkv)) h

theorem not_mem_of_pathExists_false {fs : List String} {p : String}
    (h : pathExists fs p = false) : p ∉ fs := by
  simpa [pathExists] using h

/-- C4: whatever the platform-specific uninstall routine and the external
shell commands do to the filesystem, whenever the registry's `uninstall`
returns normally the per-tool install directory (`base` joined with the
tuple's key) does not exist afterwards — the registry force-removes it if it
still exists. -/
theorem C4_uninstall_removes_dir (env : Env) (reg : Registry) (w : World)
    (base m p o v : String) (loc : ToolchainLocation)
    (hwf : ∀ kv ∈ reg.toolchain_list, kv.1 = kv.2.key)
    (hnorm : (Toolchain.uninstall env reg w base m p o v loc).2 = none) :
    pjoin (expanduser env.home base) (make_key m p o v) ∉
      (Toolchain.uninstall env reg w base m p o v loc).1.fs := by
  unfold Toolchain.uninstall at hnorm ⊢
  cases hlook : List.lookup (make_key m p o v) reg.toolchain_list with
  | none => rw [hlook] at hnorm; simp at hnorm
  | some installer =>
    rw [hlook] at hnorm
    dsimp only at hnorm ⊢
    have hkey : installer.key = make_key m p o v := lookup_key_eq hwf hlook
    have hdir : (installer.install_path env w base).1 =
        pjoin (expanduser env.home base) (make_key m p o v) := by
      rw [install_path_fst, hkey]
    rcases hres : uninstall_step env installer (installer.install_path env w base).2
        (installer.install_path env w base).1 loc with ⟨w2, e2⟩
    rw [hres] at hnorm
    cases e2 with
    | some c => exact Option.noConfusion hnorm
    | none =>
      show pjoin (expanduser env.home base) (make_key m p o v) ∉
        (if pathExists w2.fs (installer.install_path env w base).1 = true then
            removeTree w2 (installer.install_path env w base).1 else w2).fs
      rw [← hdir]
      split
      · exact removeTree_not_mem _ _
      · rename_i hne
        exact not_mem_of_pathExists_false (Bool.eq_false_iff.mpr hne)

/-- C4 witness: a concrete Darwin uninstall of the registered tuple from an
empty world returns normally and leaves no install directory. -/
theorem C4_witness :
    pjoin (expanduser envDarwin.home "/tmp/tc")
        (make_key "espressif" "esp32" "arduino" "1.0.0") ∉
      (Toolchain.uninstall envDarwin (regOf envDarwin "1.0.0") w0 "/tmp/tc"
        "espressif" "esp32" "arduino" "1.0.0" ToolchainLocation.LOCAL).1.fs :=
  C4_uninstall_removes_dir envDarwin (regOf envDarwin "1.0.0") w0 "/tmp/tc"
    "espressif" "esp32" "arduino" "1.0.0" ToolchainLocation.LOCAL
    (by decide) (by decide)

/-- C5 (amended): calling `install` with a tuple that was never registered
exits 1 and leaves the world — filesystem, trace and working directory —
untouched, provided the tuple's key differs from the registered key; the
tuple differing from the registered tuple guarantees that whenever the
registered (resolved) version string contains no `':'`. Unknown aliases
always exit 1 with the world untouched. -/
theorem C5_install_unregistered :
    (∀ (env : Env) (V : String) (reg : Registry) (w : World) (base m p o v : String)
        (loc : ToolchainLocation),
      Toolchain.init env V = .ok reg →
      ':' ∉ (resolvedVersion env V).data →
      (m, p, o, v) ≠ ("espressif", "esp32", "arduino", resolvedVersion env V) →
      Toolchain.install env reg w base m p o v loc = (w, some 1)) ∧
    (∀ (env : Env) (V : String) (reg : Registry) (w : World) (base a : String),
      Toolchain.init env V = .ok reg → a ≠ "esp32arloc" →
      Toolchain.install_alias env reg w base a = (w, some 1)) := by
  constructor
  · intro env V reg w base m p o v loc hinit hv hne
    obtain ⟨inst, hlist, -, hkey, -⟩ := init_ok_shape hinit
    unfold Toolchain.install
    rw [hlist]
    dsimp only
    have hnone : List.lookup (make_key m p o v) [(inst.key, inst)] = none := by
      simp only [List.lookup]
      split
      · rename_i heq
        exfalso
        have hkeq : make_key m p o v = inst.key := eq_of_beq heq
        rw [hkey] at hkeq
        obtain ⟨e1, e2, e3, e4⟩ :=
          make_key_inj_right (by decide) (by decide) (by decide) hv hkeq
        exact hne (by rw [e1, e2, e3, e4])
      · rfl
    rw [hnone]
  · intro env V reg w base a hinit ha
    obtain ⟨inst, -, halias, -, haname, -⟩ := init_ok_shape hinit
    unfold Toolchain.install_alias Toolchain.resolve_alias
    rw [halias, haname]
    have hnone : List.lookup a [("esp32arloc", inst.alias_dict)] = none := by
      simp only [List.lookup]
      split
      · rename_i heq
        exact absurd (eq_of_beq heq) ha
      · rfl
    rw [hnone]

/-- C5 witness: a concrete unregistered tuple and a concrete unknown alias,
both against the Darwin registry. -/
theorem C5_witness :
    Toolchain.install envDarwin (regOf envDarwin "1.0.0") w0 "/tmp/tc"
        "x" "y" "z" "1.0.0" ToolchainLocation.LOCAL = (w0, some 1) ∧
    Toolchain.install_alias envDarwin (regOf envDarwin "1.0.0") w0 "/tmp/tc"
        "nope" = (w0, some 1) :=
  ⟨C5_install_unregistered.1 envDarwin "1.0.0" (regOf envDarwin "1.0.0") w0 "/tmp/tc"
      "x" "y" "z" "1.0.0" ToolchainLocation.LOCAL rfl (by decide) (by decide),
   C5_install_unregistered.2 envDarwin "1.0.0" (regOf envDarwin "1.0.0") w0 "/tmp/tc"
      "nope" rfl (by decide)⟩

/-- C5 counterexample: when the Arduino15 glob scan resolves the version to
`":1.0.0"`, the tuple `("espressif","esp32","arduino:","1.0.0")` was never
registered, yet `install` does not exit non-zero and it creates the per-key
install directory (the two tuples' keys collide). -/
theorem C5_counterexample :
    ("espressif", "esp32", "arduino:", "1.0.0") ∉
        registeredTuples (regOf envColonScan "3.3.0") ∧
    (Toolchain.install envColonScan (regOf envColonScan "3.3.0") w0 "/tmp/tc"
        "espressif" "esp32" "arduino:" "1.0.0" ToolchainLocation.LOCAL).2 = none ∧
    pjoin "/tmp/tc" (make_key "espressif" "esp32" "arduino:" "1.0.0") ∈
      (Toolchain.install envColonScan (regOf envColonScan "3.3.0") w0 "/tmp/tc"
        "espressif" "esp32" "arduino:" "1.0.0" ToolchainLocation.LOCAL).1.fs := by
  decide

/-- C6 (amended): `reset` exits non-zero when the key is not found (on every
host OS), on a macOS host whenever the installed executable is missing at the
resolved executable path, and on a Linux host always (`reset_unix` is
unimplemented and the raised error is fatal); but on a Windows host a missing
executable only prints an error and `reset` returns normally — exit code
zero. -/
theorem C6_reset_fatal_paths :
    (∀ (env : Env) (V : String) (reg : Registry) (w : World) (base m p o v : String),
      Toolchain.init env V = .ok reg → env.hostOS = .darwin →
      pjoin (pjoin (expanduser env.home base) (make_key m p o v)) "arduino-cli" ∉ w.fs →
      (Toolchain.reset env reg w base m p o v ToolchainLocation.LOCAL).2 = some 1) ∧
    (∀ (env : Env) (reg : Registry) (w : World) (base m p o v : String)
        (loc : ToolchainLocation),
      reg.toolchain_list.lookup (make_key m p o v) = none →
      Toolchain.reset env reg w base m p o v loc = (w, some 1)) ∧
    (∀ (env : Env) (reg : Registry) (w : World) (base m p o v : String)
        (loc : ToolchainLocation) (inst : Installer),
      env.hostOS = .linux →
      reg.toolchain_list.lookup (make_key m p o v) = some inst →
      Toolchain.reset env reg w base m p o v loc = (w, some 1)) ∧
    (∀ (env : Env) (V : String) (reg : Registry) (w : World) (base : String),
      Toolchain.init env V = .ok reg → env.hostOS = .windows →
      expanduser env.home (pjoin (pjoin base
          (make_key "espressif" "esp32" "arduino" (resolvedVersion env V)))
          "arduino-cli.exe") ∉ w.fs →
      (Toolchain.reset env reg w base "espressif" "esp32" "arduino"
          (resolvedVersion env V) ToolchainLocation.LOCAL).2 = none) := by
  refine ⟨?_, ?_, ?_, ?_⟩
  · intro env V reg w base m p o v hinit hdw hmiss
    obtain ⟨i0, hlist, -, -, -, -, -, hdwexe, -, -⟩ := init_ok_shape hinit
    unfold Toolchain.reset
    dsimp only
    rw [hlist]
    cases hlook : List.lookup (make_key m p o v) [(i0.key, i0)] with
    | none => rfl
    | some installer =>
      obtain ⟨hkeq, hieq⟩ := lookup_singleton hlook
      subst hieq
      rw [hdw]
      dsimp only
      unfold Installer.reset_mac
      rw [if_pos rfl]
      dsimp only
      have hexe : installer.exec_path (installer.install_path env w base).1 =
          pjoin (pjoin (expanduser env.home base) (make_key m p o v)) "arduino-cli" := by
        show pjoin (installer.install_path env w base).1 installer.executable = _
        rw [install_path_fst, ← hkeq, hdwexe hdw]
      have hfalse : pathExists (installer.install_path env w base).2.fs
          (installer.exec_path (installer.install_path env w base).1) = false := by
        rw [Bool.eq_false_iff]
        intro htrue
        rcases install_path_fs_mem (pathExists_iff.mp htrue) with hc | hc
        · rw [hexe, install_path_fst, ← hkeq] at hc
          exact pjoin_ne _ _ hc
        · rw [hexe] at hc
          exact hmiss hc
      rw [hfalse]
      rfl
  · intro env reg w base m p o v loc hlook
    unfold Toolchain.reset
    dsimp only
    rw [hlook]
  · intro env reg w base m p o v loc inst hlin hlook
    unfold Toolchain.reset
    dsimp only
    rw [hlook, hlin]
  · intro env V reg w base hinit hwin hmiss
    obtain ⟨i0, hlist, -, hkeyr, -, -, -, -, hwexe, -⟩ := init_ok_shape hinit
    unfold Toolchain.reset
    dsimp only
    rw [hlist]
    have hlook : List.lookup
        (make_key "espressif" "esp32" "arduino" (resolvedVersion env V))
        [(i0.key, i0)] = some i0 := by
      simp [List.lookup, hkeyr]
    rw [hlook, hwin]
    dsimp only
    unfold Installer.reset_windows
    rw [if_pos rfl]
    dsimp only
    have hfalse : file_existsB env w
        (i0.exec_path (pjoin base
          (make_key "espressif" "esp32" "arduino" (resolvedVersion env V)))) = false := by
      rw [Bool.eq_false_iff]
      intro htrue
      apply hmiss
      have hshape : i0.exec_path (pjoin base
          (make_key "espressif" "esp32" "arduino" (resolvedVersion env V))) =
          pjoin (pjoin base (make_key "espressif" "esp32" "arduino"
            (resolvedVersion env V))) "arduino-cli.exe" := by
        show pjoin _ i0.executable = _
        rw [hwexe hwin]
      rw [hshape] at htrue
      exact pathExists_iff.mp htrue
    rw [hfalse]
    rfl

/-- C6 witness: the Darwin fatal path, the unknown-key fatal path and the
Linux fatal path instantiated concretely, plus the Windows normal return. -/
theorem C6_witness :
    (Toolchain.reset envDarwin (regOf envDarwin "1.0.0") w0 "/tmp/tc"
        "espressif" "esp32" "arduino" "1.0.0" ToolchainLocation.LOCAL).2 = some 1 ∧
    Toolchain.reset envDarwin (regOf envDarwin "1.0.0") w0 "/tmp/tc"
        "x" "y" "z" "q" ToolchainLocation.LOCAL = (w0, some 1) ∧
    (Toolchain.reset envWindows (regOf envWindows "1.0.0") w0 "/tmp/tc"
        "espressif" "esp32" "arduino" "1.0.0" ToolchainLocation.LOCAL).2 = none :=
  ⟨C6_reset_fatal_paths.1 envDarwin "1.0.0" (regOf envDarwin "1.0.0") w0 "/tmp/tc"
      "espressif" "esp32" "arduino" "1.0.0" rfl rfl (by decide),
   C6_reset_fatal_paths.2.1 envDarwin (regOf envDarwin "1.0.0") w0 "/tmp/tc"
      "x" "y" "z" "q" ToolchainLocation.LOCAL (by decide),
   C6_reset_fatal_paths.2.2.2 envWindows "1.0.0" (regOf envWindows "1.0.0") w0 "/tmp/tc"
      rfl rfl (by decide)⟩

/-- C6 counterexample: on a Windows host with the registered tuple and the
executable missing from the filesystem, `reset` returns normally (its exit
component is `none`), contradicting the claim that no platform returns
normally when the executable is missing. -/
theorem C6_counterexample :
    expanduser envWindows.home (pjoin (pjoin "/tmp/tc"
        (make_key "espressif" "esp32" "arduino" "1.0.0")) "arduino-cli.exe") ∉ w0.fs ∧
    (Toolchain.reset envWindows (regOf envWindows "1.0.0") w0 "/tmp/tc"
        "espressif" "esp32" "arduino" "1.0.0" ToolchainLocation.LOCAL).2 = none := by
  decide

theorem expanduser_pjoin_ne (home d x : String) (hx : x.data ≠ []) :
    expanduser home (pjoin d x) ≠ d := by
  intro h
  have hxlen : x.data.length ≠ 0 := fun h0 => hx (List.length_eq_zero.mp h0)
  have hp : (pjoin d x).data = d.data ++ '/' :: x.data := by
    simp [pjoin, String.data_append]
  unfold expanduser at h
  split at h
  · rename_i hcond
    have hdata : (pjoin d x).data = ("~" : String).data :=
      congrArg String.data (eq_of_beq hcond)
    rw [hp] at hdata
    have hlen : (d.data ++ '/' :: x.data).length = ("~" : String).data.length :=
      congrArg List.length hdata
    have h1 : ("~" : String).data.length = 1 := by decide
    rw [h1] at hlen
    simp only [List.length_append, List.length_cons] at hlen
    omega
  · split at h
    · have hlen : (home ++ String.mk ((pjoin d x).data.drop 1)).data.length =
          d.data.length := congrArg (fun s => s.data.length) h
      have hmk : (home ++ String.mk ((pjoin d x).data.drop 1)).data =
          home.data ++ (pjoin d x).data.drop 1 := by
        rw [String.data_append]
      rw [hmk] at hlen
      rw [hp] at hlen
      simp only [List.length_append, List.length_drop, List.length_cons] at hlen
      omega
    · have hlen : (pjoin d x).data.length = d.data.length :=
        congrArg (fun s => s.data.length) h
      rw [hp] at hlen
      simp only [List.length_append, List.length_cons] at hlen
      omega

theorem install_path_fs_sub {inst : Installer} {env : Env} {w : World} {base : String}
    {q : String} (h : q ∈ w.fs) : q ∈ (inst.install_path env w base).2.fs := by
  unfold Installer.install_path
  dsimp only
  split
  · exact h
  · exact List.mem_cons_of_mem _ h

theorem append_ne_brew {a X : String} (h1 : X.data.getLast? ≠ some 'i')
    (h2 : X.data ≠ []) : a ++ X ≠ "brew install arduino-cli" := by
  intro he
  cases hx : X.data.getLast? with
  | none =>
    have hs := List.getLast?_isSome.mpr h2
    rw [hx] at hs
    simp at hs
  | some ch =>
    apply h1
    have hga : (a ++ X).data.getLast? = some ch := by
      rw [String.data_append, List.getLast?_append, hx]
      rfl
    rw [he] at hga
    have hb : ("brew install arduino-cli").data.getLast? = some 'i' := by decide
    rw [hb] at hga
    rw [hx]
    exact hga.symm

theorem brew_not_mem_resetCommandsMac (exe : String) :
    "brew install arduino-cli" ∉ resetCommandsMac exe := by
  intro hmem
  simp only [resetCommandsMac, List.mem_cons, List.not_mem_nil, or_false] at hmem
  rcases hmem with h | h | h | h | h | h | h | h | h | h | h | h | h <;>
    exact append_ne_brew (by decide) (by decide) h.symm

theorem reset_mac_trace_brew_free (inst : Installer) (env : Env) (w : World)
    (base : String) (loc : ToolchainLocation)
    (hw : "brew install arduino-cli" ∉ w.trace) :
    "brew install arduino-cli" ∉ (inst.reset_mac env w base loc).1.trace := by
  unfold Installer.reset_mac
  dsimp only
  split
  · split
    · dsimp only
      intro hmem
      rw [foldl_exec_trace] at hmem
      rcases List.mem_append.mp hmem with hmem | hmem
      · revert hmem
        split
        · intro hmem
          rw [exec_cmd_trace, install_path_trace] at hmem
          rcases List.mem_append.mp hmem with h | h
          · exact hw h
          · simp only [List.mem_singleton] at h
            exact append_ne_brew (by decide) (by decide) h.symm
        · intro hmem
          rw [install_path_trace] at hmem
          exact hw hmem
      · exact brew_not_mem_resetCommandsMac _ hmem
    · dsimp only
      intro hmem
      rw [install_path_trace] at hmem
      exact hw hmem
  · exact hw

theorem reset_mac_trace_ext (inst : Installer) (env : Env) (w : World)
    (base : String) (loc : ToolchainLocation) :
    ∃ t, (inst.reset_mac env w base loc).1.trace = w.trace ++ t := by
  unfold Installer.reset_mac
  dsimp only
  split
  · split
    · dsimp only
      split
      · refine ⟨(inst.exec_path (inst.install_path env w base).1 ++
            " config init --overwrite") ::
            resetCommandsMac (inst.exec_path (inst.install_path env w base).1), ?_⟩
        rw [foldl_exec_trace, exec_cmd_trace, install_path_trace]
        simp
      · refine ⟨resetCommandsMac (inst.exec_path (inst.install_path env w base).1), ?_⟩
        rw [foldl_exec_trace, install_path_trace]
    · exact ⟨[], by rw [install_path_trace]; simp⟩
  · exact ⟨[], by simp⟩

/-- C8 (amended): the install that the registry dispatches on a macOS host is
`install_mac`, which never consults Homebrew — with the executable absent it
runs exactly the official curl install script with `BINDIR` set to the
per-key directory, and with the executable already present it exits 1 rather
than reusing it. The brew-preferring behaviour the claim describes lives in
`install_mac_with_brew`, which the registry never dispatches: there, a
missing Homebrew is a fatal error before anything runs, a missing
`arduino-cli` is installed through `brew install arduino-cli`, and an
`arduino-cli` already on the PATH is reused — `brew install` is never
invoked. -/
theorem C8_mac_install_brew :
    (∀ (env : Env) (V : String) (reg : Registry) (w : World) (base : String),
      Toolchain.init env V = .ok reg → env.hostOS = .darwin →
      expanduser env.home (pjoin (pjoin (expanduser env.home base)
          (make_key "espressif" "esp32" "arduino" (resolvedVersion env V)))
          "arduino-cli") ∉ w.fs →
      (Toolchain.install env reg w base "espressif" "esp32" "arduino"
          (resolvedVersion env V) ToolchainLocation.LOCAL).1.trace =
        w.trace ++
          ["curl -fsSL https://raw.githubusercontent.com/arduino/arduino-cli/master/install.sh | BINDIR="
            ++ pjoin (expanduser env.home base)
                 (make_key "espressif" "esp32" "arduino" (resolvedVersion env V))
            ++ " sh"]) ∧
    (∀ (env : Env) (V : String) (reg : Registry) (w : World) (base : String),
      Toolchain.init env V = .ok reg → env.hostOS = .darwin →
      expanduser env.home (pjoin (pjoin (expanduser env.home base)
          (make_key "espressif" "esp32" "arduino" (resolvedVersion env V)))
          "arduino-cli") ∈ w.fs →
      (Toolchain.install env reg w base "espressif" "esp32" "arduino"
          (resolvedVersion env V) ToolchainLocation.LOCAL).2 = some 1) ∧
    (∀ (inst : Installer) (env : Env) (w : World) (base : String),
      app_exists env "arduino-cli" = false → app_exists env "brew" = false →
      inst.install_mac_with_brew env w base ToolchainLocation.LOCAL = (w, some 1)) ∧
    (∀ (inst : Installer) (env : Env) (w : World) (base : String),
      app_exists env "arduino-cli" = false → app_exists env "brew" = true →
      "brew install arduino-cli" ∈
        (inst.install_mac_with_brew env w base ToolchainLocation.LOCAL).1.trace) ∧
    (∀ (inst : Installer) (env : Env) (w : World) (base : String),
      app_exists env "arduino-cli" = true →
      "brew install arduino-cli" ∉ w.trace →
      "brew install arduino-cli" ∉
        (inst.install_mac_with_brew env w base ToolchainLocation.LOCAL).1.trace) := by
  refine ⟨?_, ?_, ?_, ?_, ?_⟩
  · intro env V reg w base hinit hdw hmiss
    obtain ⟨i0, hlist, -, hkeyr, -, -, -, hdwexe, -, -⟩ := init_ok_shape hinit
    unfold Toolchain.install
    dsimp only
    rw [hlist]
    have hlook : List.lookup
        (make_key "espressif" "esp32" "arduino" (resolvedVersion env V))
        [(i0.key, i0)] = some i0 := by
      simp [List.lookup, hkeyr]
    rw [hlook, hdw]
    dsimp only
    unfold Installer.install_mac
    rw [if_pos rfl]
    dsimp only
    have hexe : i0.exec_path (i0.install_path env w base).1 =
        pjoin (pjoin (expanduser env.home base)
          (make_key "espressif" "esp32" "arduino" (resolvedVersion env V)))
          "arduino-cli" := by
      show pjoin (i0.install_path env w base).1 i0.executable = _
      rw [install_path_fst, hkeyr, hdwexe hdw]
    have hfalse : file_existsB env (i0.install_path env w base).2
        (i0.exec_path (i0.install_path env w base).1) = false := by
      rw [Bool.eq_false_iff]
      intro htrue
      rcases install_path_fs_mem (pathExists_iff.mp htrue) with hc | hc
      · rw [hexe, install_path_fst, hkeyr] at hc
        exact expanduser_pjoin_ne env.home _ "arduino-cli" (by decide) hc
      · rw [hexe] at hc
        exact hmiss hc
    rw [hfalse]
    show (exec_cmd env (i0.install_path env w base).2
        ("curl -fsSL https://raw.githubusercontent.com/arduino/arduino-cli/master/install.sh | BINDIR="
          ++ (i0.install_path env w base).1 ++ " sh")).trace = _
    rw [exec_cmd_trace, install_path_trace, install_path_fst, hkeyr]
  · intro env V reg w base hinit hdw hmem
    obtain ⟨i0, hlist, -, hkeyr, -, -, -, hdwexe, -, -⟩ := init_ok_shape hinit
    unfold Toolchain.install
    dsimp only
    rw [hlist]
    have hlook : List.lookup
        (make_key "espressif" "esp32" "arduino" (resolvedVersion env V))
        [(i0.key, i0)] = some i0 := by
      simp [List.lookup, hkeyr]
    rw [hlook, hdw]
    dsimp only
    unfold Installer.install_mac
    rw [if_pos rfl]
    dsimp only
    have hexe : i0.exec_path (i0.install_path env w base).1 =
        pjoin (pjoin (expanduser env.home base)
          (make_key "espressif" "esp32" "arduino" (resolvedVersion env V)))
          "arduino-cli" := by
      show pjoin (i0.install_path env w base).1 i0.executable = _
      rw [install_path_fst, hkeyr, hdwexe hdw]
    have htrue : file_existsB env (i0.install_path env w base).2
        (i0.exec_path (i0.install_path env w base).1) = true := by
      unfold file_existsB
      rw [hexe]
      exact pathExists_iff.mpr (install_path_fs_sub hmem)
    rw [htrue]
    rfl
  · intro inst env w base hcli hbrew
    unfold Installer.install_mac_with_brew
    rw [if_pos rfl]
    dsimp only
    simp [hcli, hbrew]
  · intro inst env w base hcli hbrew
    unfold Installer.install_mac_with_brew
    rw [if_pos rfl]
    dsimp only
    simp only [hcli, hbrew, Bool.false_eq_true, if_false, if_true]
    split
    · obtain ⟨t, ht⟩ := reset_mac_trace_ext inst env
        (exec_cmd env (exec_cmd env w "brew install arduino-cli")
          "arduino-cli config init --overwrite")
        DEFAULT_TOOLCHAIN_BASE ToolchainLocation.LOCAL
      rw [ht, exec_cmd_trace, exec_cmd_trace]
      simp
    · obtain ⟨t, ht⟩ := reset_mac_trace_ext inst env
        (exec_cmd env w "brew install arduino-cli")
        DEFAULT_TOOLCHAIN_BASE ToolchainLocation.LOCAL
      rw [ht, exec_cmd_trace]
      simp
  · intro inst env w base hcli hwtrace
    unfold Installer.install_mac_with_brew
    rw [if_pos rfl]
    dsimp only
    simp only [hcli, if_true]
    split
    · apply reset_mac_trace_brew_free
      rw [exec_cmd_trace]
      intro hmem
      rcases List.mem_append.mp hmem with h | h
      · exact hwtrace h
      · simp only [List.mem_singleton] at h
        exact absurd h (by decide)
    · exact reset_mac_trace_brew_free inst env w DEFAULT_TOOLCHAIN_BASE
        ToolchainLocation.LOCAL hwtrace

/-- C8 counterexample: a macOS host with Homebrew on the PATH and
`arduino-cli` not on the PATH; the registry's install of the registered tuple
proceeds (no fatal exit), dispatches at least one command, and never invokes
`brew install arduino-cli`. -/
theorem C8_counterexample :
    app_exists envBrew "brew" = true ∧
    app_exists envBrew "arduino-cli" = false ∧
    (Toolchain.install envBrew (regOf envBrew "1.0.0") w0 "/tmp/tc"
        "espressif" "esp32" "arduino" "1.0.0" ToolchainLocation.LOCAL).2 = none ∧
    ((Toolchain.install envBrew (regOf envBrew "1.0.0") w0 "/tmp/tc"
        "espressif" "esp32" "arduino" "1.0.0" ToolchainLocation.LOCAL).1.trace.all
      (fun c => !(("brew install arduino-cli" : String) == c))) = true ∧
    (Toolchain.install envBrew (regOf envBrew "1.0.0") w0 "/tmp/tc"
        "espressif" "esp32" "arduino" "1.0.0" ToolchainLocation.LOCAL).1.trace ≠ [] := by
  decide

/-- C8 witness: the dispatched curl-script path, the brew-missing fatal path,
the brew-install path, and the reuse path, all at concrete inputs. -/
theorem C8_witness :
    (Toolchain.install envDarwin (regOf envDarwin "1.0.0") w0 "/tmp/tc"
        "espressif" "esp32" "arduino" "1.0.0" ToolchainLocation.LOCAL).1.trace =
      w0.trace ++
        ["curl -fsSL https://raw.githubusercontent.com/arduino/arduino-cli/master/install.sh | BINDIR="
          ++ pjoin (expanduser envDarwin.home "/tmp/tc")
               (make_key "espressif" "esp32" "arduino" "1.0.0") ++ " sh"] ∧
    (instOf envDarwin "1.0.0").install_mac_with_brew envDarwin w0 "/tmp/tc"
        ToolchainLocation.LOCAL = (w0, some 1) ∧
    "brew install arduino-cli" ∈
      ((instOf envBrew "1.0.0").install_mac_with_brew envBrew w0 "/tmp/tc"
        ToolchainLocation.LOCAL).1.trace ∧
    "brew install arduino-cli" ∉
      ((instOf envCli "1.0.0").install_mac_with_brew envCli w0 "/tmp/tc"
        ToolchainLocation.LOCAL).1.trace :=
  ⟨C8_mac_install_brew.1 envDarwin "1.0.0" (regOf envDarwin "1.0.0") w0 "/tmp/tc"
      rfl rfl (by decide),
   C8_mac_install_brew.2.2.1 (instOf envDarwin "1.0.0") envDarwin w0 "/tmp/tc"
      rfl rfl,
   C8_mac_install_brew.2.2.2.1 (instOf envBrew "1.0.0") envBrew w0 "/tmp/tc"
      rfl rfl,
   C8_mac_install_brew.2.2.2.2 (instOf envCli "1.0.0") envCli w0 "/tmp/tc"
      rfl (by decide)⟩

end SimpleIoT
